import Mathlib

/-!
Verification development for the glue-v8 code generator.

The repository is a Rust procedural macro that turns a native function
signature into V8 glue code: a slow-path (interpreted-call) wrapper, an
optional Fast API (direct-call) pair, state threading, and promise/result
handling.  This file gives a shallow embedding of the generator's pure
decision logic (type classification, attribute parsing, codegen shape
selection) together with an executable interpreter for the behaviour of the
emitted wrapper code, and proves the specification claims against it.
-/

namespace GlueV8

/-- Simplified AST for `syn::Type` as the generator inspects it: a path type
is a list of segments, each an identifier with its angle-bracketed type
arguments; a tuple type carries its element list; everything else the
generator treats opaquely. -/
inductive RustType where
  | path (segs : List (String × List RustType))
  | tuple (elems : List RustType)
  | other (txt : String)

/- Rendering of a type back to token text, mirroring
`quote!(#ty).to_string()` which separates tokens with spaces
(e.g. `Rc < Counter >`, `v8 :: Local < v8 :: Value >`). -/
mutual
def renderType : RustType → String
  | .path segs => renderSegs segs
  | .tuple [] => "()"
  | .tuple (e :: es) => "(" ++ renderTypes (e :: es) ++ ")"
  | .other s => s

def renderSegs : List (String × List RustType) → String
  | [] => ""
  | [(nm, [])] => nm
  | [(nm, a :: as)] => nm ++ " < " ++ renderTypes (a :: as) ++ " >"
  | (nm, []) :: s :: rest => nm ++ " :: " ++ renderSegs (s :: rest)
  | (nm, a :: as) :: s :: rest =>
      nm ++ " < " ++ renderTypes (a :: as) ++ " > :: " ++ renderSegs (s :: rest)

def renderTypes : List RustType → String
  | [] => ""
  | [t] => renderType t
  | t :: u :: rest => renderType t ++ " , " ++ renderTypes (u :: rest)
end

/-- Model of `get_option_inner_type` (types.rs): last path segment named `Option`
with at least one generic argument yields that first argument. -/
def get_option_inner_type (ty : RustType) : Option RustType :=
  match ty with
  | .path segs =>
    match segs.getLast? with
    | some ("Option", a :: _) => some a
    | _ => none
  | _ => none

/-- Model of `get_rc_inner_type` (types.rs): last path segment named `Rc` with at
least one generic argument yields that first argument. -/
def get_rc_inner_type (ty : RustType) : Option RustType :=
  match ty with
  | .path segs =>
    match segs.getLast? with
    | some ("Rc", a :: _) => some a
    | _ => none
  | _ => none

/-- Model of `is_result_type` (types.rs): the last path segment is named `Result`
(the generic arguments are not inspected). -/
def is_result_type (ty : RustType) : Bool :=
  match ty with
  | .path segs =>
    match segs.getLast? with
    | some ("Result", _) => true
    | _ => false
  | _ => false

/-- Model of `get_v8_local_inner_type` (types.rs): recognizes `v8::Local<T>` or
`Local<T>` where the first generic argument is itself a path type, and
returns the identifier of that inner path's last segment. -/
def get_v8_local_inner_type (ty : RustType) : Option String :=
  match ty with
  | .path segs =>
    let localSeg :=
      match segs with
      | [("v8", _), ("Local", args)] => some args
      | [("Local", args)] => some args
      | _ => none
    match localSeg with
    | some (first :: _) =>
      match first with
      | .path innerSegs =>
        match innerSegs.getLast? with
        | some (nm, _) => some nm
        | none => none
      | _ => none
    | _ => none
  | _ => none

/-- Model of `FastApiType` (fast.rs): the V8 Fast API primitive kinds. -/
inductive FastApiType where
  | Void | Bool | I32 | U32 | I64 | U64 | F32 | F64
deriving DecidableEq, Repr

/-- The `v8::fast_api::Type` values that `quote_ctype` emits, plus the two
non-primitive slots used in descriptors (receiver and callback options). -/
inductive CType where
  | void | bool | int32 | uint32 | int64 | uint64 | float32 | float64
  | v8Value | callbackOptions
deriving DecidableEq, Repr

/-- Model of `FastApiType::quote_ctype` (fast.rs), as the descriptor entry it emits. -/
def FastApiType.ctype : FastApiType → CType
  | .Void => .void
  | .Bool => .bool
  | .I32 => .int32
  | .U32 => .uint32
  | .I64 => .int64
  | .U64 => .uint64
  | .F32 => .float32
  | .F64 => .float64

/-- Model of `get_fast_api_type` (fast.rs): for a path type, match the last
segment's identifier against the primitive names (returning `none` for any
other identifier); the empty tuple type `()` maps to `Void`; everything
else is not Fast API compatible. -/
def get_fast_api_type (ty : RustType) : Option FastApiType :=
  match ty with
  | .path segs =>
    match segs.getLast? with
    | some (nm, _) =>
      match nm with
      | "bool" => some .Bool
      | "i32" => some .I32
      | "u32" => some .U32
      | "i64" => some .I64
      | "u64" => some .U64
      | "f32" => some .F32
      | "f64" => some .F64
      | _ => none
    | none => none
  | .tuple [] => some .Void
  | _ => none

/-- The `syn::ReturnType` of the described function. -/
inductive RetType where
  | unit
  | ty (t : RustType)

/-- Model of `get_fast_api_return_type` (fast.rs): a defaulted return type is
`Void`; otherwise classify the declared type. -/
def get_fast_api_return_type (ret : RetType) : Option FastApiType :=
  match ret with
  | .unit => some .Void
  | .ty t => get_fast_api_type t

/-! ## Attribute parsing (parse.rs `MethodAttrs::parse`) -/

/-- The result of `MethodAttrs::parse`: the recognized configuration.
Note that the Rust function is total — it always returns a `MethodAttrs`
and has no error channel. -/
structure MethodAttrs where
  js_name : Option String
  state_type : Option RustType
  promise : Bool
  fast : Bool

/-- The default (all-unset) attribute configuration. -/
def MethodAttrs.init : MethodAttrs :=
  { js_name := none, state_type := none, promise := false, fast := false }

/-- One well-formed meta item of the attribute list, as `syn::meta::parser`
hands it to the closure in `MethodAttrs::parse`: a recognized key with its
value, or a key the closure does not recognize. -/
inductive MetaItem where
  | state (ty : RustType)
  | name (s : String)
  | promise
  | fast
  | unknown (key : String)

def MetaItem.isUnknown : MetaItem → Bool
  | .unknown _ => true
  | _ => false

/-- The shape of the raw attribute token stream, at the granularity the
code distinguishes: empty, a comma-separated meta-item list, a bare string
literal, or something that parses as neither. -/
inductive AttrInput where
  | empty
  | metaItems (items : List MetaItem)
  | bareStr (s : String)
  | malformed

/-- Sequential processing of meta items by the closure in
`MethodAttrs::parse`.  Each recognized item mutates the accumulated
configuration (through the `RefCell`s); the first unrecognized key makes
the closure return `Err`, which aborts `syn`'s meta parsing — but the
mutations already performed persist.  Returns the accumulated
configuration and whether parsing succeeded. -/
def processMetas (acc : MethodAttrs) : List MetaItem → MethodAttrs × Bool
  | [] => (acc, true)
  | item :: rest =>
    match item with
    | .state ty => processMetas { acc with state_type := some ty } rest
    | .name s => processMetas { acc with js_name := some s } rest
    | .promise => processMetas { acc with promise := true } rest
    | .fast => processMetas { acc with fast := true } rest
    | .unknown _ => (acc, false)

/-- Model of `MethodAttrs::parse` (parse.rs).  An empty stream yields the defaults.
A meta-item list is processed item by item; if that errors (unrecognized
key), the error is discarded (`.is_err()`), the stream is re-parsed as a
bare string literal, and on that fallback's failure the accumulated
configuration is returned as-is — no error is ever surfaced.  A bare
string literal sets the JS name. -/
def MethodAttrs.parse : AttrInput → MethodAttrs
  | .empty => MethodAttrs.init
  | .metaItems items => (processMetas MethodAttrs.init items).1
  | .bareStr s => { MethodAttrs.init with js_name := some s }
  | .malformed => MethodAttrs.init

/-! ## Slow-path codegen shape (codegen.rs / lib.rs) -/

/-- The state-extraction code emitted at the top of the slow-path wrapper
(`generate_state_extraction`, codegen.rs): nothing; a context-slot lookup
(recording the type used for `get_slot` and the declared-type text baked
into the error message); or a `compile_error!` invocation. -/
inductive StateExtraction where
  | noState
  | slot (lookupTy : RustType) (declaredStr : String)
  | compileErr (msg : String)

/-- Model of `generate_state_extraction` (codegen.rs): when state is used, look the
state up in the per-context slot — unwrapping one level of `Rc` for the
`get_slot` type argument — with the declared type's text in the
"state not found" message; a missing state type emits `compile_error!`. -/
def generate_state_extraction (has_state : Bool) (state_type : Option RustType) :
    StateExtraction :=
  if !has_state then .noState
  else
    match state_type with
    | some st =>
      match get_rc_inner_type st with
      | some inner => .slot inner (renderType st)
      | none => .slot st (renderType st)
    | none =>
      .compileErr "Function has 'state' parameter but no state type specified. Use #[glue_v8::method(state = YourStateType)]"

/-- The argument-extraction code emitted for one parameter
(`generate_arg_extractions`, codegen.rs), by shape:
`optional` (an `Option<T>` parameter, carrying the rendered inner type),
`localChecked` (a recognized `v8::Local` kind with its runtime predicate),
`localValue` (`v8::Local<v8::Value>`: bound directly, no check),
`localTryInto` (an unrecognized `v8::Local` kind, generic `try_into`),
`serde` (any other type, `serde_v8::from_v8_any`). -/
inductive ArgExtraction where
  | optional (idx : Nat) (innerTyStr : String)
  | localChecked (idx : Nat) (v8Type : String) (checkMethod : String)
  | localValue (idx : Nat)
  | localTryInto (idx : Nat) (tyStr : String)
  | serde (idx : Nat) (tyStr : String)
deriving DecidableEq, Repr

/-- The call-site argument index an extraction reads from. -/
def ArgExtraction.idx : ArgExtraction → Nat
  | .optional i _ => i
  | .localChecked i _ _ => i
  | .localValue i => i
  | .localTryInto i _ => i
  | .serde i _ => i

/-- Classification of a single parameter at index `i`
(the body of the closure in `generate_arg_extractions`): `Option<T>`
first, then recognized `v8::Local` kinds, then the generic fallbacks. -/
def classifyExtraction (i : Nat) (ty : RustType) : ArgExtraction :=
  match get_option_inner_type ty with
  | some inner => .optional i (renderType inner)
  | none =>
    match get_v8_local_inner_type ty with
    | some innerName =>
      match innerName with
      | "Function" => .localChecked i "Function" "is_function"
      | "Object" => .localChecked i "Object" "is_object"
      | "Array" => .localChecked i "Array" "is_array"
      | "Uint8Array" => .localChecked i "Uint8Array" "is_uint8_array"
      | "ArrayBuffer" => .localChecked i "ArrayBuffer" "is_array_buffer"
      | "String" => .localChecked i "String" "is_string"
      | "Number" => .localChecked i "Number" "is_number"
      | "Value" => .localValue i
      | _ => .localTryInto i (renderType ty)
    | none => .serde i (renderType ty)

/-- Model of `generate_arg_extractions` (codegen.rs): enumerate the (non-special)
parameters and classify each at its position. -/
def generate_arg_extractions (params : List (String × RustType)) :
    List ArgExtraction :=
  params.enum.map fun p => classifyExtraction p.1 p.2.2

/-- The parameter scan in `method` (lib.rs, lines 219–249): walk the
declared parameters in order; a parameter named `scope` or `_scope` only
sets the `has_scope` flag, one named `state` only sets `has_state`; every
other parameter is kept, in order. -/
structure ParamScan where
  has_scope : Bool
  has_state : Bool
  params : List (String × RustType)

/-- One step of the parameter scan, on one declared parameter. -/
def scanStep (acc : ParamScan) (p : String × RustType) : ParamScan :=
  if p.1 == "scope" || p.1 == "_scope" then { acc with has_scope := true }
  else if p.1 == "state" then { acc with has_state := true }
  else { acc with params := acc.params ++ [p] }

def collectParams (inputs : List (String × RustType)) : ParamScan :=
  inputs.foldl scanStep ⟨false, false, []⟩

/-- Whether a parameter name is recognized as special by the scan. -/
def specialName (s : String) : Bool :=
  s == "scope" || s == "_scope" || s == "state"

/-- The call/return code emitted by `generate_call_and_return`
(codegen.rs), one constructor per emitted shape. -/
inductive CallReturn where
  | promiseResult
  | promiseValue
  | promiseUnit
  | plainResult
  | plainValue
  | plainUnit
deriving DecidableEq, Repr

/-- Model of `generate_call_and_return` (codegen.rs): promise mode first, splitting
on `Result` return, then plain value, then unit. -/
def generate_call_and_return (has_return returns_result is_promise : Bool) :
    CallReturn :=
  if is_promise then
    if returns_result then .promiseResult
    else if has_return then .promiseValue
    else .promiseUnit
  else if returns_result then .plainResult
  else if has_return then .plainValue
  else .plainUnit

/-! ## Fast-path codegen (fast.rs) -/

/-- The Fast API parameter-compatibility loop in `generate_fast_api_code`
(fast.rs, lines 129–139): collect each parameter's `FastApiType`, breaking
at the first incompatible one (`all_fast_compatible = false`). -/
def collectFastParamTypes : List (String × RustType) → Option (List FastApiType)
  | [] => some []
  | (_, ty) :: rest =>
    match get_fast_api_type ty with
    | some t => (collectFastParamTypes rest).map (t :: ·)
    | none => none

/-- The `CFunctionInfo` descriptor emitted for the fast call: the return
`CTypeInfo` and the argument `CTypeInfo` list. -/
structure CFunctionInfo where
  ret : CType
  args : List CType
deriving DecidableEq, Repr

/-- The artifact bundle `generate_fast_api_code` (fast.rs) returns, one
constructor per `return` branch:
`slowOnlyNonPrimitive` — slow wrapper only, with the recorded note that a
type was not a primitive; `slowOnlyScope` — slow wrapper only, noting the
function uses the scope; `stateCompileError` — state requested without a
type, emits `compile_error!`; `dualWithState` / `dualPure` — slow wrapper
plus the fast pair with its ABI descriptor. -/
inductive FastOutput where
  | slowOnlyNonPrimitive
  | slowOnlyScope
  | stateCompileError
  | dualWithState (info : CFunctionInfo)
  | dualPure (info : CFunctionInfo)
deriving DecidableEq, Repr

/-- Model of `generate_fast_api_code` (fast.rs): check parameter and return
compatibility first, then scope use, then split on state.  The with-state
descriptor appends a trailing `CallbackOptions` slot
(`generate_fast_api_with_state`, lines 443–447); the pure descriptor is
receiver followed by the parameter types (`generate_fast_api_pure`,
lines 302–306). -/
def generate_fast_api_code (params : List (String × RustType)) (ret : RetType)
    (has_scope has_state : Bool) (state_type : Option RustType) : FastOutput :=
  match collectFastParamTypes params with
  | none => .slowOnlyNonPrimitive
  | some fts =>
    match get_fast_api_return_type ret with
    | none => .slowOnlyNonPrimitive
    | some fr =>
      if has_scope then .slowOnlyScope
      else if has_state then
        match state_type with
        | some _ =>
          .dualWithState
            ⟨fr.ctype, .v8Value :: (fts.map FastApiType.ctype ++ [.callbackOptions])⟩
        | none => .stateCompileError
      else .dualPure ⟨fr.ctype, .v8Value :: fts.map FastApiType.ctype⟩

/-- Whether the output bundle contains the fast pair. -/
def FastOutput.emitsFastPair : FastOutput → Bool
  | .dualWithState _ => true
  | .dualPure _ => true
  | _ => false

/-- Whether the output bundle contains the slow-path wrapper. -/
def FastOutput.emitsSlowWrapper : FastOutput → Bool
  | .stateCompileError => false
  | _ => true

/-- Whether the output records a fallback note (the code comments
"Falling back to slow path only" in the two slow-only branches). -/
def FastOutput.hasFallbackNote : FastOutput → Bool
  | .slowOnlyNonPrimitive => true
  | .slowOnlyScope => true
  | _ => false

/-- Predicate `specFastEligible` is modelled from the spec's words (for comparison
with the source's `get_fast_api_type`): "Fast-eligible primitives are
exactly: boolean, signed/unsigned 32- and 64-bit integers, 32- and 64-bit
floats, and void/unit — nothing else is ever fast-eligible". In the
textual type classification this reads: the type's last path identifier is
one of the eight primitive names, or the type is the unit tuple. -/
def specFastEligible (ty : RustType) : Bool :=
  match ty with
  | .path segs =>
    match segs.getLast? with
    | some (nm, _) =>
      nm == "bool" || nm == "i32" || nm == "u32" || nm == "i64" ||
      nm == "u64" || nm == "f32" || nm == "f64"
    | none => false
  | .tuple [] => true
  | _ => false

/-! ## Runtime semantics of the emitted wrapper

The generated slow-path wrapper runs against the V8 engine; the engine and
the serde conversions are external collaborators, modelled as oracles.
What the wrapper itself does — predicate checks, sentinel tests, error
construction, ordering of the return-sink write, resolver settlement — is
interpreted exactly as the emitted code reads. -/

/-- A V8 value, by the kind distinctions the emitted code can observe. -/
inductive V8Value where
  | undefined | null
  | promise
  | function | object | array | uint8Array | arrayBuffer
  | string | number | boolean
  | wrapped (s : String)
deriving DecidableEq, Repr

/-- Test `is_undefined() || is_null()` — the sentinel test in the `Option<T>`
extraction. -/
def isSentinel : V8Value → Bool
  | .undefined => true
  | .null => true
  | _ => false

/-- The engine's runtime type predicates, by `check_method` name. -/
def runCheck (method : String) (v : V8Value) : Bool :=
  match method with
  | "is_function" => v == .function
  | "is_object" => v == .object
  | "is_array" => v == .array
  | "is_uint8_array" => v == .uint8Array
  | "is_array_buffer" => v == .arrayBuffer
  | "is_string" => v == .string
  | "is_number" => v == .number
  | _ => false

/-- Accessor `args.get(idx)`: V8 yields `undefined` for an index past the supplied
arguments. -/
def getArg (args : List V8Value) (i : Nat) : V8Value :=
  args.getD i .undefined

/-- An observable action of the generated wrapper: setting the return
sink, invoking the wrapped function, settling the promise resolver,
throwing a type error, or throwing a generic error. -/
inductive Event where
  | setSink (v : V8Value)
  | invoke
  | resolve (v : V8Value)
  | reject (errMsg : String)
  | throwTypeError (msg : String)
  | throwError (msg : String)
deriving DecidableEq, Repr

/-- A Rust-side value bound by an extraction: an absent `Option`, a
present `Option`, a raw V8 handle, or a converted plain value.  Converted
values are represented by the string the conversion oracle supplies. -/
inductive BoundArg where
  | noneVal
  | someVal (v : String)
  | handle (v : V8Value)
  | plain (v : String)
deriving DecidableEq, Repr

/-- Result of running one argument extraction: a bound value, or an abort
carrying the event thrown before the wrapper `return`s. -/
inductive StepResult where
  | ok (b : BoundArg)
  | abort (e : Event)
deriving DecidableEq, Repr

/-- Interpretation of one emitted argument extraction.
`conv` models `serde_v8::from_v8_any` (keyed by the rendered target type);
`tro` models the generic `try_into` for unrecognized `v8::Local` kinds. -/
def runExtraction (conv : String → V8Value → Except String String)
    (tro : String → V8Value → Bool) (args : List V8Value) :
    ArgExtraction → StepResult
  | .optional i innerStr =>
    let a := getArg args i
    if isSentinel a then .ok .noneVal
    else
      match conv innerStr a with
      | .ok v => .ok (.someVal v)
      | .error e =>
        .abort (.throwTypeError
          ("argument " ++ toString i ++ ": expected " ++ innerStr ++ ": " ++ e))
  | .localChecked i v8Type checkMethod =>
    let a := getArg args i
    if runCheck checkMethod a then .ok (.handle a)
    else
      .abort (.throwTypeError
        ("argument " ++ toString i ++ " must be a " ++ v8Type))
  | .localValue i => .ok (.handle (getArg args i))
  | .localTryInto i tyStr =>
    let a := getArg args i
    if tro tyStr a then .ok (.handle a)
    else
      .abort (.throwTypeError ("argument " ++ toString i ++ ": expected " ++ tyStr))
  | .serde i tyStr =>
    match conv tyStr (getArg args i) with
    | .ok v => .ok (.plain v)
    | .error e =>
      .abort (.throwTypeError
        ("argument " ++ toString i ++ ": expected " ++ tyStr ++ ": " ++ e))

/-- Run the extraction sequence: the first abort stops the wrapper. -/
def runArgs (conv : String → V8Value → Except String String)
    (tro : String → V8Value → Bool) (args : List V8Value) :
    List ArgExtraction → Except Event (List BoundArg)
  | [] => .ok []
  | e :: rest =>
    match runExtraction conv tro args e with
    | .ok b => (runArgs conv tro args rest).map (b :: ·)
    | .abort ev => .error ev

/-- The wrapped function's outcome, by the shape of its declared return:
no return, a plain value, or a `Result` (`Ok`/`Err` with the stringified
error, i.e. `format!("{}", err)`). -/
inductive FnOutcome where
  | unitDone
  | value (v : String)
  | okVal (v : String)
  | errVal (e : String)
deriving DecidableEq, Repr

/-- Whether the outcome shape matches the signature flags the generator
saw (`returns_result` / `has_return`). -/
def shapeOk (has_return returns_result : Bool) : FnOutcome → Bool
  | .okVal _ => returns_result
  | .errVal _ => returns_result
  | .value _ => !returns_result && has_return
  | .unitDone => !returns_result && !has_return

/-- Interpretation of the emitted call/return code, as the event sequence
it performs.  `toV8` models `serde_v8::to_v8`.  Each branch transcribes
the corresponding `quote!` block of `generate_call_and_return`
(codegen.rs): in promise mode, `rv.set(promise)` precedes the invocation;
a failed `to_v8` conversion silently skips `rv.set` / `resolver.resolve`. -/
def runCallReturn (cr : CallReturn) (out : FnOutcome)
    (toV8 : String → Option V8Value) : List Event :=
  match cr with
  | .promiseResult =>
    .setSink .promise :: .invoke ::
      (match out with
       | .okVal v =>
         match toV8 v with
         | some w => [.resolve w]
         | none => []
       | .errVal e => [.reject e]
       | _ => [])
  | .promiseValue =>
    .setSink .promise :: .invoke ::
      (match out with
       | .value v =>
         match toV8 v with
         | some w => [.resolve w]
         | none => []
       | _ => [])
  | .promiseUnit => [.setSink .promise, .invoke, .resolve .undefined]
  | .plainResult =>
    .invoke ::
      (match out with
       | .okVal v =>
         match toV8 v with
         | some w => [.setSink w]
         | none => []
       | .errVal e => [.throwError e]
       | _ => [])
  | .plainValue =>
    .invoke ::
      (match out with
       | .value v =>
         match toV8 v with
         | some w => [.setSink w]
         | none => []
       | _ => [])
  | .plainUnit => [.invoke]

/-- Interpretation of the whole generated slow-path wrapper:
state extraction first (absent slot — generic error, immediate return),
then the argument extractions in order (an abort throws and returns),
then the call/return block.  The `compile_error!` case never runs. -/
def runWrapper (st : StateExtraction) (exts : List ArgExtraction)
    (cr : CallReturn) (slotPresent : Bool) (args : List V8Value)
    (conv : String → V8Value → Except String String)
    (tro : String → V8Value → Bool)
    (out : FnOutcome) (toV8 : String → Option V8Value) : List Event :=
  match st with
  | .compileErr _ => []
  | .noState =>
    match runArgs conv tro args exts with
    | .error ev => [ev]
    | .ok _ => runCallReturn cr out toV8
  | .slot _ declaredStr =>
    if slotPresent then
      match runArgs conv tro args exts with
      | .error ev => [ev]
      | .ok _ => runCallReturn cr out toV8
    else
      [.throwError ("internal error: state not found for " ++ declaredStr)]

/-- Number of times the emitted code settles the promise resolver. -/
def settleCount (tr : List Event) : Nat :=
  (tr.filter fun e =>
    match e with
    | .resolve _ => true
    | .reject _ => true
    | _ => false).length

/-- Whether a trace writes the return sink. -/
def setsSink (tr : List Event) : Bool :=
  tr.any fun e =>
    match e with
    | .setSink _ => true
    | _ => false

/-- Whether a trace invokes the wrapped function. -/
def invokes (tr : List Event) : Bool :=
  tr.any fun e =>
    match e with
    | .invoke => true
    | _ => false

/-! ## Helper lemmas -/

/-- Processing a meta-item list that reaches an unrecognized key: the
items before it took effect through the shared cells, the unrecognized key
aborts the closure, and everything after it is never seen. -/
lemma processMetas_skip_unknown (k : String) (post : List MetaItem) :
    ∀ (pre : List MetaItem), pre.all (fun m => !m.isUnknown) = true →
    ∀ acc : MethodAttrs,
      (processMetas acc (pre ++ MetaItem.unknown k :: post)).1 =
        (processMetas acc pre).1 := by
  intro pre
  induction pre with
  | nil => intro _ acc; rfl
  | cons item rest ih =>
    intro h acc
    simp only [List.all_cons, Bool.and_eq_true] at h
    cases item with
    | state ty => exact ih h.2 _
    | name s => exact ih h.2 _
    | promise => exact ih h.2 _
    | fast => exact ih h.2 _
    | unknown key => simp [MetaItem.isUnknown] at h

/-! ## Claim C1 -/

/-- **C1** — counterexample.  An attribute set consisting of the single
unrecognized key `foo` does not fail the build: `MethodAttrs::parse` is a
total function with no error channel, and on this input it returns exactly
the same configuration as an empty attribute set — all defaults.  The
unrecognized key is silently ignored, contradicting the claim that
generation fails with a build-time ConfigurationError. -/
theorem c1_counterexample :
    MethodAttrs.parse (.metaItems [.unknown "foo"]) = MethodAttrs.parse .empty ∧
    (MethodAttrs.parse (.metaItems [.unknown "foo"])).js_name = none ∧
    (MethodAttrs.parse (.metaItems [.unknown "foo"])).state_type = none ∧
    (MethodAttrs.parse (.metaItems [.unknown "foo"])).promise = false ∧
    (MethodAttrs.parse (.metaItems [.unknown "foo"])).fast = false :=
  ⟨rfl, rfl, rfl, rfl, rfl⟩

/-- **C1** — amended claim.  For every attribute set containing an
unrecognized key, generation does not fail: the recognized items before
the first unrecognized key take effect, the unrecognized key and every
item after it are silently ignored, and the macro proceeds with the
resulting (possibly default) options. -/
theorem c1_unknown_key_silently_ignored (pre post : List MetaItem) (k : String)
    (hpre : pre.all (fun m => !m.isUnknown) = true) :
    MethodAttrs.parse (.metaItems (pre ++ MetaItem.unknown k :: post)) =
      (processMetas MethodAttrs.init pre).1 :=
  processMetas_skip_unknown k post pre hpre MethodAttrs.init

/-- **C1** — witness for the amended theorem: `name = "x", bogus, promise`
yields `js_name = "x"` with `promise` silently lost. -/
theorem c1_witness :
    ([MetaItem.name "x"].all (fun m => !m.isUnknown) = true) ∧
    MethodAttrs.parse
        (.metaItems ([MetaItem.name "x"] ++ MetaItem.unknown "bogus" :: [MetaItem.promise])) =
      (processMetas MethodAttrs.init [MetaItem.name "x"]).1 :=
  ⟨rfl, c1_unknown_key_silently_ignored [MetaItem.name "x"] [MetaItem.promise] "bogus" rfl⟩

/-! ## Claim C3 -/

/-- **C3** — counterexample.  A promise-mode fallible function whose
success value fails the return conversion (`serde_v8::to_v8` errors)
settles the deferred zero times, not exactly once: the wrapper sets the
promise in the return sink, invokes, and then silently skips
`resolver.resolve`. -/
theorem c3_counterexample :
    runCallReturn (generate_call_and_return true true true) (.okVal "v")
        (fun _ => none) =
      [.setSink .promise, .invoke] ∧
    settleCount
        (runCallReturn (generate_call_and_return true true true) (.okVal "v")
          (fun _ => none)) = 0 :=
  ⟨rfl, rfl⟩

/-- **C3** — amended claim.  For every promise-mode function — fallible,
plain-value or no-value — the wrapper sets the return sink to the
deferred placeholder before invoking the wrapped function, and the
deferred is settled at most once: rejected exactly once on a fallible
failure; fulfilled exactly once on a fallible success or a plain returned
value whose conversion succeeds; fulfilled exactly once with `undefined`
for a no-value function; and — the amendment — never settled when
conversion of the produced value (fallible success or plain value)
fails. -/
theorem c3_promise_deferred_behavior (has_return returns_result : Bool)
    (out : FnOutcome) (toV8 : String → Option V8Value)
    (hshape : shapeOk has_return returns_result out = true) :
    (runCallReturn (generate_call_and_return has_return returns_result true)
        out toV8).take 2 = [.setSink .promise, .invoke] ∧
    settleCount (runCallReturn (generate_call_and_return has_return returns_result true)
        out toV8) ≤ 1 ∧
    (∀ e, out = .errVal e →
      runCallReturn (generate_call_and_return has_return returns_result true) out toV8 =
        [.setSink .promise, .invoke, .reject e]) ∧
    (∀ v w, out = .okVal v → toV8 v = some w →
      runCallReturn (generate_call_and_return has_return returns_result true) out toV8 =
        [.setSink .promise, .invoke, .resolve w]) ∧
    (∀ v, out = .okVal v → toV8 v = none →
      settleCount (runCallReturn (generate_call_and_return has_return returns_result true)
        out toV8) = 0) ∧
    (∀ v w, out = .value v → toV8 v = some w →
      runCallReturn (generate_call_and_return has_return returns_result true) out toV8 =
        [.setSink .promise, .invoke, .resolve w]) ∧
    (∀ v, out = .value v → toV8 v = none →
      settleCount (runCallReturn (generate_call_and_return has_return returns_result true)
        out toV8) = 0) ∧
    (out = .unitDone →
      runCallReturn (generate_call_and_return has_return returns_result true) out toV8 =
        [.setSink .promise, .invoke, .resolve .undefined]) := by
  cases returns_result <;> cases has_return <;> cases out <;>
    simp_all [shapeOk, generate_call_and_return, runCallReturn, settleCount] <;>
    rename_i v <;> cases h : toV8 v <;> simp [h]

/-- **C3** — witness for the amended theorem, at a fallible failure:
the trace is sink-set, invoke, then exactly one rejection. -/
theorem c3_witness :
    shapeOk true true (.errVal "boom") = true ∧
    runCallReturn (generate_call_and_return true true true) (.errVal "boom")
        (fun _ => some (.wrapped "w")) =
      [.setSink .promise, .invoke, .reject "boom"] :=
  ⟨rfl,
    (c3_promise_deferred_behavior true true (.errVal "boom")
        (fun _ => some (.wrapped "w")) rfl).2.2.1 "boom" rfl⟩

/-! ## Claim C5 -/

/-- **C5**.  For every non-async function returning a `Result`: a failure
result makes the wrapper throw a generic engine error (`Exception::error`,
not a type error) whose message equals the stringified error, with the
return sink left unset; a success result is converted and, when the
conversion succeeds, set in the return sink. -/
theorem c5_plain_result_error_handling (has_return : Bool) (e v : String)
    (w : V8Value) (toV8 : String → Option V8Value) :
    runCallReturn (generate_call_and_return has_return true false) (.errVal e) toV8 =
      [.invoke, .throwError e] ∧
    setsSink (runCallReturn (generate_call_and_return has_return true false)
        (.errVal e) toV8) = false ∧
    (toV8 v = some w →
      runCallReturn (generate_call_and_return has_return true false) (.okVal v) toV8 =
        [.invoke, .setSink w]) := by
  refine ⟨rfl, by simp [setsSink, runCallReturn, generate_call_and_return], fun hw => ?_⟩
  simp [runCallReturn, generate_call_and_return, hw]

/-- **C5** — witness: a convertible success value is set in the sink. -/
theorem c5_witness :
    ((fun _ : String => some (V8Value.wrapped "w")) "val" = some (V8Value.wrapped "w")) ∧
    runCallReturn (generate_call_and_return true true false) (.okVal "val")
        (fun _ => some (.wrapped "w")) =
      [.invoke, .setSink (.wrapped "w")] :=
  ⟨rfl,
    (c5_plain_result_error_handling true "boom" "val" (.wrapped "w")
        (fun _ => some (.wrapped "w"))).2.2 rfl⟩

/-! ## Claim C6 -/

/-- **C6**.  For every non-async function with a returned value, a failed
return conversion leaves the return sink silently unset and raises no
error: the trace consists of the invocation only — both for a plain
return value and for the `Ok` branch of a `Result` return. -/
theorem c6_return_conversion_failure_silent (v : String)
    (toV8 : String → Option V8Value) (hv : toV8 v = none) :
    runCallReturn (generate_call_and_return true false false) (.value v) toV8 =
      [.invoke] ∧
    runCallReturn (generate_call_and_return true true false) (.okVal v) toV8 =
      [.invoke] := by
  constructor <;> simp [runCallReturn, generate_call_and_return, hv]

/-- **C6** — witness at a conversion oracle that always fails. -/
theorem c6_witness :
    ((fun _ : String => (none : Option V8Value)) "val" = none) ∧
    runCallReturn (generate_call_and_return true false false) (.value "val")
        (fun _ => none) = [.invoke] :=
  ⟨rfl, (c6_return_conversion_failure_silent "val" (fun _ => none) rfl).1⟩

/-! ## Claim C7 -/

/-- **C7**.  For every function using SharedSlot state, the generated
wrapper performs the context-slot read before any argument extraction:
when the slot is absent, regardless of the argument extractions, the
supplied arguments, the conversion oracles or the call/return shape, the
whole trace is one generic engine error (not a type error) with message
`internal error: state not found for <declared type>` — the wrapped
function is never invoked and the return sink is never set. -/
theorem c7_state_slot_missing (stTy : RustType) (exts : List ArgExtraction)
    (cr : CallReturn) (args : List V8Value)
    (conv : String → V8Value → Except String String)
    (tro : String → V8Value → Bool) (out : FnOutcome)
    (toV8 : String → Option V8Value) :
    runWrapper (generate_state_extraction true (some stTy)) exts cr false args
        conv tro out toV8 =
      [.throwError ("internal error: state not found for " ++ renderType stTy)] ∧
    invokes (runWrapper (generate_state_extraction true (some stTy)) exts cr false args
        conv tro out toV8) = false ∧
    setsSink (runWrapper (generate_state_extraction true (some stTy)) exts cr false args
        conv tro out toV8) = false := by
  have hslot : ∃ lty, generate_state_extraction true (some stTy) =
      .slot lty (renderType stTy) := by
    unfold generate_state_extraction
    cases h : get_rc_inner_type stTy with
    | some inner => exact ⟨inner, by simp [h]⟩
    | none => exact ⟨stTy, by simp [h]⟩
  obtain ⟨lty, hl⟩ := hslot
  rw [hl]
  refine ⟨rfl, ?_, ?_⟩ <;> simp [runWrapper, invokes, setsSink]

/-! ## Claim C9 -/

/-- The parameter scan keeps exactly the non-special parameters, in
order, regardless of the starting accumulator. -/
lemma collectParams_go (ps : List (String × RustType)) :
    ∀ acc : ParamScan, (ps.foldl scanStep acc).params =
      acc.params ++ ps.filter (fun p => !specialName p.1) := by
  induction ps with
  | nil => intro acc; simp
  | cons p rest ih =>
    intro acc
    simp only [List.foldl_cons, List.filter_cons]
    rw [ih (scanStep acc p)]
    cases hsc : (p.1 == "scope") <;> cases hsc2 : (p.1 == "_scope") <;>
      cases hst : (p.1 == "state") <;>
      simp [scanStep, specialName, hsc, hsc2, hst, List.append_assoc]

/-- Each classified extraction carries exactly the index it was
enumerated at. -/
lemma classify_idx (i : Nat) (ty : RustType) :
    (classifyExtraction i ty).idx = i := by
  unfold classifyExtraction
  split
  · rfl
  · split
    · split <;> rfl
    · rfl

/-- The extraction list assigns the indices 0, 1, 2, … in order. -/
lemma extraction_idx_map (l : List (String × RustType)) :
    (generate_arg_extractions l).map ArgExtraction.idx = List.range l.length := by
  unfold generate_arg_extractions
  rw [List.map_map]
  have h : (ArgExtraction.idx ∘ fun p : Nat × (String × RustType) =>
      classifyExtraction p.1 p.2.2) = Prod.fst := by
    funext p
    exact classify_idx p.1 p.2.2
  rw [h, List.enum_map_fst]

/-- **C9**.  The parameter scan drops parameters named exactly `scope`,
`_scope` or `state` on the name alone — the kept list equals the filter
of the declared parameters by name — and the generated extraction list
reads argument indices `0, 1, …` matching each kept parameter's 0-based
position among the kept parameters: parameter position maps 1:1 to
call-site argument index. -/
theorem c9_param_index_mapping (ps : List (String × RustType)) :
    (collectParams ps).params = ps.filter (fun p => !specialName p.1) ∧
    ((collectParams ps).params.all (fun p => !specialName p.1)) = true ∧
    (generate_arg_extractions (collectParams ps).params).map ArgExtraction.idx =
      List.range (collectParams ps).params.length := by
  have hkeep : (collectParams ps).params = ps.filter (fun p => !specialName p.1) := by
    unfold collectParams
    rw [collectParams_go]
    rfl
  refine ⟨hkeep, ?_, extraction_idx_map _⟩
  rw [hkeep]
  simp only [List.all_eq_true]
  intro p hp
  exact (List.mem_filter.mp hp).2

/-! ## Claim C10 -/

/-- A type recognized as a `v8::Local` wrapper is never classified as an
`Option<T>` parameter: the `Local` path shapes have last segment `Local`,
not `Option`. -/
lemma local_not_option (ty : RustType) (s : String)
    (h : get_v8_local_inner_type ty = some s) :
    get_option_inner_type ty = none := by
  cases ty with
  | path segs =>
    match segs with
    | [("v8", a), ("Local", args)] => rfl
    | [("Local", args)] => rfl
    | [] => rfl
    | [(nm, a)] =>
      simp only [get_v8_local_inner_type] at h
      by_cases hnm : nm = "Local"
      · subst hnm; rfl
      · exfalso
        revert h
        simp [hnm]
    | (nm1, a1) :: (nm2, a2) :: q :: rest =>
      simp [get_v8_local_inner_type] at h
    | [(nm1, a1), (nm2, a2)] =>
      simp only [get_v8_local_inner_type] at h
      by_cases h1 : nm1 = "v8"
      · by_cases h2 : nm2 = "Local"
        · subst h1; subst h2; rfl
        · exfalso; revert h; simp [h1, h2]
      · exfalso; revert h; simp [h1]
  | tuple es => simp [get_v8_local_inner_type] at h
  | other t => simp [get_v8_local_inner_type] at h

/-- **C10**.  For every parameter declared `v8::Local<v8::Value>`
(inner kind `Value`), the classifier emits the direct binding with no
runtime type predicate, and its interpretation binds the raw argument —
whatever it is, including `undefined` and `null` — and never aborts with
a type error. -/
theorem c10_any_value_param (i : Nat) (ty : RustType)
    (h : get_v8_local_inner_type ty = some "Value") :
    classifyExtraction i ty = .localValue i ∧
    (∀ (conv : String → V8Value → Except String String)
       (tro : String → V8Value → Bool) (args : List V8Value),
      runExtraction conv tro args (.localValue i) = .ok (.handle (getArg args i)) ∧
      ∀ ev, runExtraction conv tro args (.localValue i) ≠ .abort ev) := by
  constructor
  · unfold classifyExtraction
    rw [local_not_option ty "Value" h, h]
    rfl
  · intro conv tro args
    exact ⟨rfl, fun ev => by simp [runExtraction]⟩

/-- **C10** — witness at the concrete type `v8::Local<v8::Value>` and the
`null` argument. -/
theorem c10_witness :
    get_v8_local_inner_type
        (.path [("v8", []), ("Local", [.path [("v8", []), ("Value", [])]])]) =
      some "Value" ∧
    runExtraction (fun _ _ => .error "no") (fun _ _ => false) [V8Value.null]
        (.localValue 0) = .ok (.handle .null) :=
  ⟨rfl,
    ((c10_any_value_param 0
        (.path [("v8", []), ("Local", [.path [("v8", []), ("Value", [])]])]) rfl).2
      (fun _ _ => .error "no") (fun _ _ => false) [V8Value.null]).1⟩

/-! ## Claim C4 -/

/-- **C4**.  For every `Option<T>` parameter at index `i` of the generated
slow-path wrapper: the emitted extraction names the inner type `T` (not
`Option<T>`); an `undefined` or `null` argument binds absent; a convertible
argument binds present with the converted value; an inconvertible argument
aborts with a type error whose message is
`argument <i>: expected <T>: <underlying error>` — naming `T`, not
`Option<T>` — and any such abort makes the whole wrapper trace exactly
that one thrown type error, with the return sink unset and the wrapped
function not invoked. -/
theorem c4_optional_param (params : List (String × RustType)) (i : Nat)
    (nm : String) (ty inner : RustType)
    (hi : params.get? i = some (nm, ty))
    (hop : get_option_inner_type ty = some inner) :
    (generate_arg_extractions params).get? i =
      some (.optional i (renderType inner)) ∧
    (∀ (conv : String → V8Value → Except String String)
       (tro : String → V8Value → Bool) (args : List V8Value),
      (isSentinel (getArg args i) = true →
        runExtraction conv tro args (.optional i (renderType inner)) =
          .ok .noneVal) ∧
      (∀ v, isSentinel (getArg args i) = false →
        conv (renderType inner) (getArg args i) = .ok v →
        runExtraction conv tro args (.optional i (renderType inner)) =
          .ok (.someVal v)) ∧
      (∀ e, isSentinel (getArg args i) = false →
        conv (renderType inner) (getArg args i) = .error e →
        runExtraction conv tro args (.optional i (renderType inner)) =
          .abort (.throwTypeError
            ("argument " ++ toString i ++ ": expected " ++ renderType inner ++
              ": " ++ e)))) ∧
    (∀ (conv : String → V8Value → Except String String)
       (tro : String → V8Value → Bool) (args : List V8Value)
       (cr : CallReturn) (out : FnOutcome) (toV8 : String → Option V8Value)
       (m : String),
      runArgs conv tro args (generate_arg_extractions params) =
        .error (.throwTypeError m) →
      runWrapper .noState (generate_arg_extractions params) cr true args
          conv tro out toV8 = [.throwTypeError m] ∧
      setsSink [Event.throwTypeError m] = false ∧
      invokes [Event.throwTypeError m] = false) := by
  refine ⟨?_, ?_, ?_⟩
  · unfold generate_arg_extractions
    rw [List.get?_map, List.enum_get?, hi]
    simp [classifyExtraction, hop]
  · intro conv tro args
    refine ⟨fun hs => by simp [runExtraction, hs],
      fun v hs hc => by simp [runExtraction, hs, hc],
      fun e hs hc => by simp [runExtraction, hs, hc]⟩
  · intro conv tro args cr out toV8 m habort
    exact ⟨by simp [runWrapper, habort], rfl, rfl⟩

/-- **C4** — witness at the concrete parameter `title : Option<String>`. -/
theorem c4_witness :
    ([("title", RustType.path [("Option", [RustType.path [("String", [])]])])].get? 0 =
      some ("title", RustType.path [("Option", [RustType.path [("String", [])]])])) ∧
    (generate_arg_extractions
        [("title", RustType.path [("Option", [RustType.path [("String", [])]])])]).get? 0 =
      some (.optional 0 (renderType (RustType.path [("String", [])]))) :=
  ⟨rfl,
    (c4_optional_param
        [("title", RustType.path [("Option", [RustType.path [("String", [])]])])] 0
        "title" (RustType.path [("Option", [RustType.path [("String", [])]])])
        (RustType.path [("String", [])]) rfl rfl).1⟩

/-! ## Claim C2 -/

/-- The source's type classification accepts exactly the spec's
fast-eligible set: a path whose last identifier is one of the eight
primitive names, or the unit tuple. -/
lemma fast_type_isSome (t : RustType) :
    (get_fast_api_type t).isSome = specFastEligible t := by
  cases t with
  | path segs =>
    cases h : segs.getLast? with
    | none => simp [get_fast_api_type, specFastEligible, h]
    | some seg =>
      obtain ⟨nm, args⟩ := seg
      simp only [get_fast_api_type, specFastEligible, h]
      split <;> simp_all
  | tuple es => cases es <;> rfl
  | other s => rfl

/-- Spec-side return eligibility: "the return TypeClass is a fast-eligible
primitive or void" — a defaulted return type is void. -/
def specRetEligible : RetType → Bool
  | .unit => true
  | .ty t => specFastEligible t

/-- The return classification accepts exactly the spec's set. -/
lemma retEligible_isSome (ret : RetType) :
    (get_fast_api_return_type ret).isSome = specRetEligible ret := by
  cases ret with
  | unit => rfl
  | ty t => exact fast_type_isSome t

/-- The parameter loop succeeds exactly when every parameter is
fast-eligible. -/
lemma collect_isSome (ps : List (String × RustType)) :
    (collectFastParamTypes ps).isSome = ps.all (fun p => specFastEligible p.2) := by
  induction ps with
  | nil => rfl
  | cons p rest ih =>
    obtain ⟨nm, ty⟩ := p
    simp only [collectFastParamTypes, List.all_cons]
    cases h : get_fast_api_type ty with
    | none =>
      have hne : specFastEligible ty = false := by rw [← fast_type_isSome, h]; rfl
      simp [hne]
    | some t =>
      have he : specFastEligible ty = true := by rw [← fast_type_isSome, h]; rfl
      simp [he, ih]

/-- **C2**.  With a well-formed configuration (a declared state type
whenever state is used — anything else is the separate missing-state-type
ConfigurationError), the generator emits the fast pair exactly when every
parameter and the return type are fast-eligible primitives — exactly the
set {boolean, i32, u32, i64, u64, f32, f64, void/unit} — and the function
does not consume the scope; otherwise it emits the slow wrapper only,
with a recorded fallback note, and never fails from ineligibility. -/
theorem c2_fast_eligibility (params : List (String × RustType)) (ret : RetType)
    (has_scope has_state : Bool) (state_type : Option RustType)
    (hconf : has_state = true → state_type.isSome = true) :
    ((generate_fast_api_code params ret has_scope has_state state_type).emitsFastPair =
        true ↔
      (params.all (fun p => specFastEligible p.2) = true ∧
        specRetEligible ret = true ∧ has_scope = false)) ∧
    ((generate_fast_api_code params ret has_scope has_state state_type).emitsFastPair =
        false →
      (generate_fast_api_code params ret has_scope has_state state_type).emitsSlowWrapper =
        true ∧
      (generate_fast_api_code params ret has_scope has_state state_type).hasFallbackNote =
        true) ∧
    (∀ t : RustType, (get_fast_api_type t).isSome = specFastEligible t) := by
  have main :
      (generate_fast_api_code params ret has_scope has_state state_type).emitsFastPair =
        (params.all (fun p => specFastEligible p.2) && specRetEligible ret &&
          !has_scope) ∧
      ((generate_fast_api_code params ret has_scope has_state state_type).emitsFastPair =
          false →
        (generate_fast_api_code params ret has_scope has_state
            state_type).emitsSlowWrapper = true ∧
        (generate_fast_api_code params ret has_scope has_state
            state_type).hasFallbackNote = true) := by
    unfold generate_fast_api_code
    cases hc : collectFastParamTypes params with
    | none =>
      have hall : params.all (fun p => specFastEligible p.2) = false := by
        rw [← collect_isSome, hc]; rfl
      simp [FastOutput.emitsFastPair, FastOutput.emitsSlowWrapper,
        FastOutput.hasFallbackNote, hall]
    | some fts =>
      have hall : params.all (fun p => specFastEligible p.2) = true := by
        rw [← collect_isSome, hc]; rfl
      cases hr : get_fast_api_return_type ret with
      | none =>
        have hret : specRetEligible ret = false := by
          rw [← retEligible_isSome, hr]; rfl
        simp [FastOutput.emitsFastPair, FastOutput.emitsSlowWrapper,
          FastOutput.hasFallbackNote, hall, hret]
      | some fr =>
        have hret : specRetEligible ret = true := by
          rw [← retEligible_isSome, hr]; rfl
        cases has_scope with
        | true =>
          simp [FastOutput.emitsFastPair, FastOutput.emitsSlowWrapper,
            FastOutput.hasFallbackNote]
        | false =>
          cases has_state with
          | false =>
            simp [FastOutput.emitsFastPair, hall, hret]
          | true =>
            obtain ⟨st, hst⟩ := Option.isSome_iff_exists.mp (hconf rfl)
            subst hst
            simp [FastOutput.emitsFastPair, hall, hret]
  refine ⟨?_, main.2, fast_type_isSome⟩
  rw [main.1]
  constructor
  · intro h
    simp only [Bool.and_eq_true, Bool.not_eq_true'] at h
    exact ⟨h.1.1, h.1.2, h.2⟩
  · rintro ⟨h1, h2, h3⟩
    simp [h1, h2, h3]

/-- **C2** — witness: `fn add(a: f64) -> f64` with PinnedCapsule state is
eligible and gets the fast pair. -/
theorem c2_witness :
    ((true = true →
      (some (RustType.path [("Rc", [RustType.path [("Counter", [])]])]) :
        Option RustType).isSome = true)) ∧
    (generate_fast_api_code [("a", RustType.path [("f64", [])])]
        (.ty (RustType.path [("f64", [])])) false true
        (some (RustType.path [("Rc", [RustType.path [("Counter", [])]])]))).emitsFastPair =
      true :=
  ⟨fun _ => rfl,
    (c2_fast_eligibility [("a", RustType.path [("f64", [])])]
        (.ty (RustType.path [("f64", [])])) false true
        (some (RustType.path [("Rc", [RustType.path [("Counter", [])]])]))
        (fun _ => rfl)).1.mpr ⟨rfl, rfl, rfl⟩⟩

/-! ## Claim C8 -/

/-- A successful parameter loop records exactly each parameter's
classification, in declaration order. -/
lemma collect_maps (ps : List (String × RustType)) (fts : List FastApiType)
    (h : collectFastParamTypes ps = some fts) :
    ps.map (fun p => get_fast_api_type p.2) = fts.map some := by
  induction ps generalizing fts with
  | nil => cases h; rfl
  | cons p rest ih =>
    obtain ⟨nm, ty⟩ := p
    simp only [collectFastParamTypes] at h
    cases hty : get_fast_api_type ty with
    | none => rw [hty] at h; cases h
    | some t =>
      rw [hty] at h
      cases hrest : collectFastParamTypes rest with
      | none => rw [hrest] at h; cases h
      | some l =>
        rw [hrest] at h
        simp only [Option.map_some'] at h
        cases h
        simp [List.map_cons, hty, ih l hrest]

/-- A primitive descriptor entry is never the call-options slot. -/
lemma ctype_ne_callbackOptions (t : FastApiType) :
    t.ctype ≠ CType.callbackOptions := by
  cases t <;> simp [FastApiType.ctype]

/-- **C8**.  For every fast-eligible function the emitted ABI descriptor's
argument list is the receiver (`V8Value`) followed by each parameter's
native primitive type in declaration order; with state a trailing
call-options slot is appended, and without state no call-options slot
appears anywhere in the list. -/
theorem c8_abi_descriptor (params : List (String × RustType)) (ret : RetType)
    (stTy : RustType) (fts : List FastApiType) (fr : FastApiType)
    (hp : collectFastParamTypes params = some fts)
    (hr : get_fast_api_return_type ret = some fr) :
    generate_fast_api_code params ret false false none =
      .dualPure ⟨fr.ctype, .v8Value :: fts.map FastApiType.ctype⟩ ∧
    generate_fast_api_code params ret false true (some stTy) =
      .dualWithState
        ⟨fr.ctype, .v8Value :: (fts.map FastApiType.ctype ++ [.callbackOptions])⟩ ∧
    params.map (fun p => get_fast_api_type p.2) = fts.map some ∧
    CType.callbackOptions ∉
      (CType.v8Value :: fts.map FastApiType.ctype) := by
  refine ⟨?_, ?_, collect_maps params fts hp, ?_⟩
  · unfold generate_fast_api_code; rw [hp, hr]; rfl
  · unfold generate_fast_api_code; rw [hp, hr]; rfl
  · intro hmem
    rcases List.mem_cons.mp hmem with h | h
    · cases h
    · obtain ⟨t, _, ht⟩ := List.mem_map.mp h
      exact ctype_ne_callbackOptions t ht

/-- **C8** — witness at `fn add(a: f64) -> f64`. -/
theorem c8_witness :
    collectFastParamTypes [("a", RustType.path [("f64", [])])] = some [.F64] ∧
    get_fast_api_return_type (.ty (RustType.path [("f64", [])])) = some .F64 ∧
    generate_fast_api_code [("a", RustType.path [("f64", [])])]
        (.ty (RustType.path [("f64", [])])) false false none =
      .dualPure ⟨CType.float64, [.v8Value, .float64]⟩ :=
  ⟨rfl, rfl,
    (c8_abi_descriptor [("a", RustType.path [("f64", [])])]
        (.ty (RustType.path [("f64", [])])) (RustType.path [("Counter", [])])
        [.F64] .F64 rfl rfl).1⟩

end GlueV8
